import Mathlib

set_option maxRecDepth 4000

/-!
Shallow embedding of the market-transaction normalization pipeline
(`process_transactions/market.py`, `utils.py`, `constants.py`).

Conventions of the embedding:
* A pandas cell that may be `NaN` is an `Option String` (`none` = missing/NaN,
  `some s` = the string `s`); `pd.isna v` is `v = none`.
* Python floats are embedded as rationals (`ℚ`); `round(x, 2)` is exact
  decimal rounding half-to-even of the rational value.
* External collaborators (difflib similarity scoring, the SHAKE-256 digest,
  the weather HTTP call, the products SKU table) are parameters of the
  embedding, carried in `Env` below; everything written in the repository
  itself is translated directly.
-/

/-- Python `str(value)` as used in f-strings on possibly-NaN cells:
`str(float("nan")) = "nan"`. -/
def pdText : Option String → String
  | none => "nan"
  | some s => s

/-- Association-list model of a Python `dict` used as a cache:
`k in d` / `d[k]` is `alookup k d`, insertion appends. -/
def alookup {α : Type} (k : String) : List (String × α) → Option α
  | [] => none
  | (k2, v) :: l => if k = k2 then some v else alookup k l

/-! ### `difflib.get_close_matches` (stdlib collaborator of `attempt_to_fix_categorical`)

`get_close_matches(word, possibilities, n=3, cutoff)` keeps every candidate
whose `SequenceMatcher` similarity score is `≥ cutoff`, then returns the `n`
largest `(score, candidate)` pairs (Python tuple order: score first, the
string breaking ties), best first.  The numeric scoring function itself is a
parameter `sim` of the embedding (a stdlib algorithm, not repository code);
everything that the repository observes about `get_close_matches` is stated
relative to it. -/

/-- Strict Python tuple order on `(score, string)` pairs. -/
def tupleLt (p q : ℚ × String) : Prop :=
  p.1 < q.1 ∨ (p.1 = q.1 ∧ p.2 < q.2)

instance instDecTupleLt (p q : ℚ × String) : Decidable (tupleLt p q) :=
  inferInstanceAs (Decidable (_ ∨ _))

/-- Insert a pair into a list kept in descending tuple order. -/
def insertDesc (p : ℚ × String) : List (ℚ × String) → List (ℚ × String)
  | [] => [p]
  | q :: l => if tupleLt q p then p :: q :: l else q :: insertDesc p l

/-- Sort `(score, string)` pairs in descending tuple order
(the order `heapq.nlargest` returns). -/
def sortDesc : List (ℚ × String) → List (ℚ × String)
  | [] => []
  | p :: l => insertDesc p (sortDesc l)

/-- Model of `difflib.get_close_matches word possibilities n cutoff` with
similarity function `sim`: candidates scoring at least `cutoff`, the best `n`
of them, best first. -/
def get_close_matches (sim : String → String → ℚ) (word : String)
    (possibilities : List String) (n : Nat) (cutoff : ℚ) : List String :=
  ((sortDesc ((possibilities.filter fun x => decide (cutoff ≤ sim x word)).map
    fun x => (sim x word, x))).take n).map Prod.snd

/-! ### `datetime.strptime` / `strftime` (stdlib collaborators)

CPython's `_strptime` compiles a format string into a regex; the directives
used by this repository translate to:
`%Y = \d\d\d\d`, `%y = \d\d`, `%m = 1[0-2]|0[1-9]|[1-9]`,
`%d = 3[01]|[12]\d|0[1-9]|[1-9]`, `%H = 2[0-3]|[0-1]\d|\d`,
`%M = [0-5]\d|\d`, other characters literal.  The whole input must be
consumed by the (leftmost, alternative-preferring) regex match and the
resulting calendar date must be valid, else `ValueError`. -/

inductive Directive : Type
  | Y | y | m | d | H | M
deriving DecidableEq

inductive FmtToken : Type
  | lit : Char → FmtToken
  | dir : Directive → FmtToken
deriving DecidableEq

def digitVal (c : Char) : Nat := c.toNat - 48

/-- Exactly `n` digits, most significant first. -/
def takeDigits : Nat → Nat → List Char → Option (Nat × List Char)
  | 0, acc, cs => some (acc, cs)
  | _ + 1, _, [] => none
  | n + 1, acc, c :: cs =>
    if c.isDigit then takeDigits n (acc * 10 + digitVal c) cs else none

def between (lo c hi : Char) : Bool := lo ≤ c && c ≤ hi

/-- The candidate `(value, rest)` parses of one directive, in regex
alternative-preference order. -/
def dirAlts : Directive → List Char → List (Nat × List Char)
  | .Y, cs => (takeDigits 4 0 cs).toList
  | .y, cs => (takeDigits 2 0 cs).toList
  | .m, cs =>
    (match cs with
      | c1 :: c2 :: rest =>
        (if c1 = '1' && between '0' c2 '2' then [(10 + digitVal c2, rest)] else []) ++
        (if c1 = '0' && between '1' c2 '9' then [(digitVal c2, rest)] else [])
      | _ => []) ++
    (match cs with
      | c1 :: rest => if between '1' c1 '9' then [(digitVal c1, rest)] else []
      | _ => [])
  | .d, cs =>
    (match cs with
      | c1 :: c2 :: rest =>
        (if c1 = '3' && between '0' c2 '1' then [(30 + digitVal c2, rest)] else []) ++
        (if between '1' c1 '2' && c2.isDigit then [(digitVal c1 * 10 + digitVal c2, rest)] else []) ++
        (if c1 = '0' && between '1' c2 '9' then [(digitVal c2, rest)] else [])
      | _ => []) ++
    (match cs with
      | c1 :: rest => if between '1' c1 '9' then [(digitVal c1, rest)] else []
      | _ => [])
  | .H, cs =>
    (match cs with
      | c1 :: c2 :: rest =>
        (if c1 = '2' && between '0' c2 '3' then [(20 + digitVal c2, rest)] else []) ++
        (if between '0' c1 '1' && c2.isDigit then [(digitVal c1 * 10 + digitVal c2, rest)] else [])
      | _ => []) ++
    (match cs with
      | c1 :: rest => if c1.isDigit then [(digitVal c1, rest)] else []
      | _ => [])
  | .M, cs =>
    (match cs with
      | c1 :: c2 :: rest =>
        if between '0' c1 '5' && c2.isDigit then [(digitVal c1 * 10 + digitVal c2, rest)] else []
      | _ => []) ++
    (match cs with
      | c1 :: rest => if c1.isDigit then [(digitVal c1, rest)] else []
      | _ => [])

/-- Fields captured by the regex groups. -/
structure ParsedFields : Type where
  year4 : Option Nat := none
  year2 : Option Nat := none
  month : Option Nat := none
  day : Option Nat := none
  hour : Option Nat := none
  minute : Option Nat := none
deriving DecidableEq

def setDir (acc : ParsedFields) : Directive → Nat → ParsedFields
  | .Y, v => { acc with year4 := some v }
  | .y, v => { acc with year2 := some v }
  | .m, v => { acc with month := some v }
  | .d, v => { acc with day := some v }
  | .H, v => { acc with hour := some v }
  | .M, v => { acc with minute := some v }

/-- Backtracking matcher for a compiled format, mirroring the regex engine:
alternatives of each directive are tried in preference order, the first way
of matching the whole token list wins, and the unconsumed suffix is
returned. -/
def matchTokens : List FmtToken → List Char → ParsedFields → Option (ParsedFields × List Char)
  | [], cs, acc => some (acc, cs)
  | .lit _ :: _, [], _ => none
  | .lit c :: ts, c2 :: cs, acc => if c2 = c then matchTokens ts cs acc else none
  | .dir D :: ts, cs, acc =>
    (dirAlts D cs).foldr
      (fun vr res =>
        match matchTokens ts vr.2 (setDir acc D vr.1) with
        | some r => some r
        | none => res)
      none

structure DateTime : Type where
  year : Nat
  month : Nat
  day : Nat
  hour : Nat
  minute : Nat
deriving DecidableEq

def isLeap (y : Nat) : Bool := y % 4 = 0 && (y % 100 ≠ 0 || y % 400 = 0)

def daysInMonth (y m : Nat) : Nat :=
  if m = 2 then (if isLeap y then 29 else 28)
  else if m = 4 || m = 6 || m = 9 || m = 11 then 30
  else 31

/-- CPython two-digit year rule: 0–68 ↦ 2000+, 69–99 ↦ 1900+. -/
def pyYear2 (n : Nat) : Nat := if n ≤ 68 then 2000 + n else 1900 + n

/-- `datetime.strptime data_string format`: `some` datetime on success,
`none` where CPython raises `ValueError` (no regex match, unconverted data
remains, or out-of-range calendar date). -/
def strptime (s : String) (fmt : List FmtToken) : Option DateTime :=
  match matchTokens fmt s.data {} with
  | some (acc, []) =>
    let year := match acc.year4 with
      | some n => n
      | none => match acc.year2 with
        | some n => pyYear2 n
        | none => 1900
    let month := acc.month.getD 1
    let day := acc.day.getD 1
    if 1 ≤ year && year ≤ 9999 && day ≤ daysInMonth year month then
      some ⟨year, month, day, acc.hour.getD 0, acc.minute.getD 0⟩
    else none
  | _ => none

def padZero (width : Nat) (n : Nat) : String :=
  let s := toString n
  String.mk (List.replicate (width - s.length) '0') ++ s

/-- `datetime.strftime d "%Y-%m-%d"`. -/
def strftimeYmd (dt : DateTime) : String :=
  padZero 4 dt.year ++ "-" ++ padZero 2 dt.month ++ "-" ++ padZero 2 dt.day

/-- `"%Y-%m-%d"` compiled. -/
def fmtYmd4 : List FmtToken := [.dir .Y, .lit '-', .dir .m, .lit '-', .dir .d]

/-- `"%y-%m-%d"` compiled. -/
def fmtYmd2 : List FmtToken := [.dir .y, .lit '-', .dir .m, .lit '-', .dir .d]

/-- `"%y %m %d"` compiled. -/
def fmtYmd2Sp : List FmtToken := [.dir .y, .lit ' ', .dir .m, .lit ' ', .dir .d]

/-- `"%H:%M"` compiled. -/
def fmtHM : List FmtToken := [.dir .H, .lit ':', .dir .M]

/-- `"%Y-%m-%d %H:%M"` compiled. -/
def fmtFull : List FmtToken :=
  [.dir .Y, .lit '-', .dir .m, .lit '-', .dir .d, .lit ' ', .dir .H, .lit ':', .dir .M]

/-- Default `formats` argument of `attempt_to_fix_date_format`. -/
def defaultDateFormats : List (List FmtToken) := [fmtYmd4, fmtYmd2, fmtYmd2Sp]

/-! ### Constants (`constants.py`) -/

def TAX_RATE : ℚ := 5 / 100

def LOCATIONS : List String := ["Bangor, ME", "Concord, NH", "Portland, ME", "Portsmouth, NH"]

def EMPLOYEES : List String := ["james", "sarah", "carmen", "peter"]

/-- `PRODUCTS` dict, insertion order preserved. -/
def PRODUCTS : List (Int × String) :=
  [(24625356, "strawberries"), (98320088, "blueberries"), (83846512, "blackberries"),
   (98623454, "blackcurrants"), (87245676, "salmonberries"), (12635273, "raspberries")]

/-- `list(PRODUCTS.values())`. -/
def productValues : List String := PRODUCTS.map Prod.snd

/-! ### `utils.py` -/

def hexDigit (n : Nat) : Char := if n < 10 then Char.ofNat (48 + n) else Char.ofNat (87 + n)

/-- One byte printed as two lowercase hex digits (as `hexdigest` prints it). -/
def byteHex (b : Nat) : String := String.mk [hexDigit (b / 16), hexDigit (b % 16)]

/-- `hash_id(id_str) = hashlib.shake_256(str(id_str).encode("utf-8")).hexdigest(16)`.
The SHAKE-256 extendable-output function is a stdlib primitive, embedded as the
parameter `shake` where `shake n s` is the `n`-byte digest of `s` (so
`hexdigest(16) = shake 16` rendered in hex, two characters per byte). -/
def hash_id (shake : Nat → String → List Nat) (id_str : String) : String :=
  String.join ((shake 16 id_str).map byteHex)

/-- `parse_date_formats(date, formats)`: first format that parses wins;
`none` models the `ValueError` raised when every format fails. -/
def parse_date_formats (date : String) : List (List FmtToken) → Option DateTime
  | [] => none
  | f :: fs =>
    match strptime date f with
    | some d => some d
    | none => parse_date_formats date fs

/-! ### Python `round(x, 2)` (banker's rounding, embedded exactly on `ℚ`) -/

def ratFloor (x : ℚ) : ℤ := Int.fdiv x.num x.den

/-- Round to the nearest integer, ties to the even integer. -/
def pyRoundInt (x : ℚ) : ℤ :=
  let f := ratFloor x
  let r := x - (f : ℚ)
  if r < 1 / 2 then f
  else if 1 / 2 < r then f + 1
  else if f % 2 = 0 then f else f + 1

/-- `round(x, 2)`. -/
def pyRound2 (x : ℚ) : ℚ := (pyRoundInt (x * 100) : ℚ) / 100

/-! ### `process_transactions/market.py` -/

/-- Weather API payload: boundary shape `hourly.cloudcover[24]`,
`daily.rain_sum[1]`, `daily.snowfall_sum[1]`, `daily.temperature_2m_max[1]`. -/
structure WeatherData : Type where
  cloudcover : List ℚ
  rain_sum : List ℚ
  snowfall_sum : List ℚ
  temperature_2m_max : List ℚ

/-- `statistics.mean`. -/
def pyMean (l : List ℚ) : ℚ := l.sum / l.length

/-- `get_weather_type(weather_data)`: categorize from the mean cloud cover of
`cloudcover[7:15]`, the rain sum and the snow sum. -/
def get_weather_type (w : WeatherData) : String :=
  let cloud_cover := pyMean ((w.cloudcover.drop 7).take 8)
  let rain := w.rain_sum.getD 0 0
  let snow := w.snowfall_sum.getD 0 0
  if cloud_cover < 10 then "sunny"
  else if 2 < rain then "rainy"
  else if 1 / 2 < snow then "snowy"
  else "cloudy"

/-- `attempt_to_fix_categorical(row, key, allowed_values)` (the cell
`row[key]` is passed directly; `sim` is the difflib similarity parameter).
Returns the (possibly fixed) value and an optional error message. -/
def attempt_to_fix_categorical (sim : String → String → ℚ) (value : Option String)
    (key : String) (allowed_values : List String) : Option String × Option String :=
  match value with
  | none => (none, some ("Categorical value \x27" ++ key ++ "\x27 is missing"))
  | some v =>
    if v = "" then (some v, some ("Categorical value \x27" ++ key ++ "\x27 is missing"))
    else if v ∈ allowed_values then (some v, none)
    else
      match get_close_matches sim v allowed_values 3 (4 / 5) with
      | [] => (some v, some ("Could not correct categorical value \x27" ++ key ++ "\x27: " ++ v))
      | b :: _ => (some b, none)

/-- `attempt_to_fix_date_format(date, formats)`. -/
def attempt_to_fix_date_format (date : Option String) (formats : List (List FmtToken)) :
    Option String × Option String :=
  match date with
  | none => (none, some "Date is missing")
  | some s =>
    if s = "" then (some s, some "Date is missing")
    else
      match parse_date_formats s formats with
      | some dt => (some (strftimeYmd dt), none)
      | none => (some s, some ("Could not parse date: " ++ s))

/-- `validate_time(time_)`. -/
def validate_time (time_ : Option String) : Option String × Option String :=
  match time_ with
  | none => (none, some "Time is missing")
  | some s =>
    match strptime s fmtHM with
    | some _ => (some s, none)
    | none => (some s, some ("Could not parse time: " ++ s))

/-- The error registry dict, observed extensionally: each originating
filename maps to its list of error strings in append order (an absent key
maps to the empty list). -/
def ErrorRegistry : Type := String → List String

/-- `add_error(errors, orig_filename, sale_number, error)`. -/
def add_error (errors : ErrorRegistry) (orig_filename : String) (sale_number : Int)
    (error : String) : ErrorRegistry :=
  fun k =>
    if k = orig_filename then errors k ++ [toString sale_number ++ ": " ++ error]
    else errors k

/-- The per-row error loop of `transform_market_transactions`: `add_error`
for every non-`None` entry of the five check results, in order. -/
def recordErrors (errors : ErrorRegistry) (fname : String) (sale : Int) :
    List (Option String) → ErrorRegistry
  | [] => errors
  | none :: rest => recordErrors errors fname sale rest
  | some e :: rest => recordErrors (add_error errors fname sale e) fname sale rest

/-! ### `transform_market_transactions` -/

/-- External collaborators of the transform, fixed for one run:
`sim` scores difflib similarity, `nameToSku` is the lookup built from the
`products` table (`get_lookup_fn(products_df, "name", "sku")`), `getWeather`
is `get_weather(address, date)` returning `(temp, weather_type)`, and
`shake` is the SHAKE-256 digest used by `hash_id`. -/
structure Env : Type where
  sim : String → String → ℚ
  nameToSku : String → Int
  getWeather : String → String → ℚ × String
  shake : Nat → String → List Nat

/-- One raw input row of the concatenated market DataFrame.
`location`, `employee` and `date` come from the filename; the rest from the
spreadsheet.  `hasAdditionalData`/`additionalDataEmployee` model the
`"additional_data" in row` access used for the employee check. -/
structure MarketRow : Type where
  location : Option String
  employee : Option String
  product : Option String
  date : Option String
  sold_at : Option String
  sale_number : Int
  unit_price : ℚ
  quantity : ℚ
  hasAdditionalData : Bool := false
  additionalDataEmployee : Option String := none

/-- The `additional_data` nested map of an output row. -/
structure AdditionalData : Type where
  employee : String
  temperature : ℚ
  weather_type : String

/-- One canonical output transaction dict. -/
structure Transaction : Type where
  transaction_id : String
  location : String
  created_at : Option DateTime
  sku : Int
  source : String
  payment_method : String
  tax : ℚ
  total : ℚ
  product_name : String
  unit_price : ℚ
  quantity : ℚ
  additional_data : AdditionalData

/-- Loop state of `transform_market_transactions`: the `transactions` list,
the `errors` registry, the `weather_data` cache, plus `calls`, the
instrumentation log of arguments of every `get_weather` invocation
(`(address, date)` per call, in call order). -/
structure TState : Type where
  transactions : List Transaction
  errors : ErrorRegistry
  weather_data : List (String × (ℚ × String))
  calls : List (String × String)

def initState : TState :=
  { transactions := [], errors := fun _ => [], weather_data := [], calls := [] }

/-- `row["additional_data"]["employee"]` when the row has `additional_data`,
else `row["employee"]`. -/
def employeeInput (row : MarketRow) : Option String :=
  if row.hasAdditionalData then row.additionalDataEmployee else row.employee

/-- Check 1: `attempt_to_fix_categorical(row, "location", LOCATIONS)`. -/
def locResult (env : Env) (row : MarketRow) : Option String × Option String :=
  attempt_to_fix_categorical env.sim row.location "location" LOCATIONS

/-- Check 2: `attempt_to_fix_categorical(..., "employee", EMPLOYEES)`. -/
def empResult (env : Env) (row : MarketRow) : Option String × Option String :=
  attempt_to_fix_categorical env.sim (employeeInput row) "employee" EMPLOYEES

/-- Check 3: `attempt_to_fix_categorical(row, "product", list(PRODUCTS.values()))`. -/
def prodResult (env : Env) (row : MarketRow) : Option String × Option String :=
  attempt_to_fix_categorical env.sim row.product "product" productValues

/-- Check 4: `attempt_to_fix_date_format(row["date"])`. -/
def dateResult (row : MarketRow) : Option String × Option String :=
  attempt_to_fix_date_format row.date defaultDateFormats

/-- Check 5: `validate_time(row["sold_at"])`. -/
def timeResult (row : MarketRow) : Option String × Option String :=
  validate_time row.sold_at

/-- The tuple `(location_error, employee_error, product_error, date_error,
time_error)` iterated by the error loop. -/
def rowErrorList (env : Env) (row : MarketRow) : List (Option String) :=
  [(locResult env row).2, (empResult env row).2, (prodResult env row).2,
   (dateResult row).2, (timeResult row).2]

/-- `orig_filename = f"{row['location']}__{row['date']}__{row['employee']}"`
(raw fields, f-string semantics on NaN). -/
def origFilename (row : MarketRow) : String :=
  pdText row.location ++ "__" ++ pdText row.date ++ "__" ++ pdText row.employee

/-- `fixed_row_id = "market" + location + employee + row["date"] + str(row["sale_number"])`
(repaired location and employee, raw date string). -/
def fixedRowId (env : Env) (row : MarketRow) : String :=
  "market" ++ pdText (locResult env row).1 ++ pdText (empResult env row).1 ++
    pdText row.date ++ toString row.sale_number

/-- `weather_key = date + ":" + location` (normalized date, repaired location). -/
def weatherKey (env : Env) (row : MarketRow) : String :=
  pdText (dateResult row).1 ++ ":" ++ pdText (locResult env row).1

/-- The output dict appended for an accepted row, given the `(temp,
weather_type)` pair `tw` obtained from the cache or the live call. -/
def acceptedTransaction (env : Env) (row : MarketRow) (tw : ℚ × String) : Transaction :=
  { transaction_id := hash_id env.shake (fixedRowId env row)
    location := "market_" ++ pdText (locResult env row).1
    created_at := strptime (pdText (dateResult row).1 ++ " " ++ pdText (timeResult row).1) fmtFull
    sku := env.nameToSku (pdText (prodResult env row).1)
    source := "market"
    payment_method := "cash"
    tax := pyRound2 (row.unit_price * row.quantity * TAX_RATE)
    total := pyRound2 (row.unit_price * row.quantity * (1 + TAX_RATE))
    product_name := pdText (prodResult env row).1
    unit_price := row.unit_price
    quantity := row.quantity
    additional_data :=
      { employee := pdText (empResult env row).1
        temperature := tw.1
        weather_type := tw.2 } }

/-- One iteration of the `for i, row in df.iterrows()` loop. -/
def processRow (env : Env) (st : TState) (row : MarketRow) : TState :=
  let errors2 := recordErrors st.errors (origFilename row) row.sale_number (rowErrorList env row)
  if (rowErrorList env row).any Option.isSome then
    { st with errors := errors2 }
  else
    match alookup (weatherKey env row) st.weather_data with
    | some tw =>
      { st with errors := errors2,
                transactions := st.transactions ++ [acceptedTransaction env row tw] }
    | none =>
      let tw := env.getWeather (pdText (locResult env row).1) (pdText (dateResult row).1)
      { st with errors := errors2,
                transactions := st.transactions ++ [acceptedTransaction env row tw],
                weather_data := st.weather_data ++ [(weatherKey env row, tw)],
                calls := st.calls ++ [(pdText (locResult env row).1, pdText (dateResult row).1)] }

/-- `transform_market_transactions(df)`: fold the loop body over the rows.
The resulting state carries both returned values (`transactions_df`,
`errors`) together with the cache and the call log. -/
def transform_market_transactions (env : Env) (rows : List MarketRow) : TState :=
  rows.foldl (processRow env) initState

/-! ### Concrete instantiations used by the witnesses -/

/-- A degenerate similarity scorer (scores everything 0). -/
def simZero : String → String → ℚ := fun _ _ => 0

/-- A degenerate SHAKE-256 stand-in satisfying the output-length law. -/
def shakeZero : Nat → String → List Nat := fun n _ => List.replicate n 0

/-- A concrete environment for evaluating the pipeline on sample rows. -/
def envW : Env :=
  { sim := simZero
    nameToSku := fun _ => 24625356
    getWeather := fun _ _ => (7, "cloudy")
    shake := shakeZero }

/-- The accepted sample row of the spec scenario (with a clean employee). -/
def rowGood : MarketRow :=
  { location := some "Bangor, ME"
    employee := some "james"
    product := some "strawberries"
    date := some "2023-01-15"
    sold_at := some "09:30"
    sale_number := 1
    unit_price := 699 / 100
    quantity := 3 }

/-- A rejected sample row: its location cell is NaN. -/
def rowBad : MarketRow :=
  { rowGood with location := none, sale_number := 2 }

/-- A sample weather payload of the boundary shape. -/
def weather0 : WeatherData :=
  { cloudcover := List.replicate 24 0
    rain_sum := [0]
    snowfall_sum := [0]
    temperature_2m_max := [7] }

/-- The cache key a logged `get_weather` call `(address, date)` was stored
under: `date + ":" + location`. -/
def callKey (c : String × String) : String := c.2 ++ ":" ++ c.1

/-- Run invariant tying the call log to the cache: distinct keys, and every
logged call is cached. -/
def CacheInv (st : TState) : Prop :=
  (st.calls.map callKey).Nodup ∧
  ∀ c ∈ st.calls, (alookup (callKey c) st.weather_data).isSome = true

/-! ## Theorems -/

theorem tupleLt_asymm {p q : ℚ × String} (h : tupleLt p q) : ¬ tupleLt q p := by
  rcases h with h | ⟨h1, h2⟩
  · rintro (h2 | ⟨h3, _⟩)
    · exact absurd (lt_trans h h2) (lt_irrefl _)
    · exact absurd h (h3 ▸ lt_irrefl _)
  · rintro (h3 | ⟨_, h4⟩)
    · exact absurd h3 (h1 ▸ lt_irrefl _)
    · exact absurd (lt_trans h2 h4) (lt_irrefl _)

theorem tupleLt_trans {p q r : ℚ × String} (h1 : tupleLt p q) (h2 : tupleLt q r) :
    tupleLt p r := by
  rcases h1 with h1 | ⟨h1, h1b⟩ <;> rcases h2 with h2 | ⟨h2, h2b⟩
  · exact Or.inl (lt_trans h1 h2)
  · exact Or.inl (h2 ▸ h1)
  · exact Or.inl (h1 ▸ h2)
  · exact Or.inr ⟨h1.trans h2, lt_trans h1b h2b⟩

theorem mem_insertDesc {q p : ℚ × String} {l : List (ℚ × String)} :
    q ∈ insertDesc p l ↔ q = p ∨ q ∈ l := by
  induction l with
  | nil => simp [insertDesc]
  | cons a l ih =>
    by_cases h : tupleLt a p
    · simp [insertDesc, h]
    · simp only [insertDesc, if_neg h, List.mem_cons, ih]
      tauto

theorem mem_sortDesc {q : ℚ × String} {l : List (ℚ × String)} :
    q ∈ sortDesc l ↔ q ∈ l := by
  induction l with
  | nil => simp [sortDesc]
  | cons a l ih => simp [sortDesc, mem_insertDesc, ih]

theorem pairwise_insertDesc {p : ℚ × String} {l : List (ℚ × String)}
    (h : l.Pairwise (fun a b => ¬ tupleLt a b)) :
    (insertDesc p l).Pairwise (fun a b => ¬ tupleLt a b) := by
  induction l with
  | nil => simp [insertDesc]
  | cons a l ih =>
    rcases List.pairwise_cons.mp h with ⟨ha, hl⟩
    by_cases hap : tupleLt a p
    · rw [insertDesc, if_pos hap]
      refine List.pairwise_cons.mpr ⟨?_, h⟩
      intro x hx
      rcases List.mem_cons.mp hx with rfl | hx
      · exact tupleLt_asymm hap
      · intro hpx
        exact ha x hx (tupleLt_trans hap hpx)
    · rw [insertDesc, if_neg hap]
      refine List.pairwise_cons.mpr ⟨?_, ih hl⟩
      intro x hx
      rcases mem_insertDesc.mp hx with rfl | hx
      · exact hap
      · exact ha x hx

theorem pairwise_sortDesc (l : List (ℚ × String)) :
    (sortDesc l).Pairwise (fun a b => ¬ tupleLt a b) := by
  induction l with
  | nil => simp [sortDesc]
  | cons a l ih => exact pairwise_insertDesc ih

theorem length_insertDesc (p : ℚ × String) (l : List (ℚ × String)) :
    (insertDesc p l).length = l.length + 1 := by
  induction l with
  | nil => simp [insertDesc]
  | cons a l ih =>
    by_cases h : tupleLt a p
    · simp [insertDesc, h]
    · simp [insertDesc, h, ih]

theorem length_sortDesc (l : List (ℚ × String)) : (sortDesc l).length = l.length := by
  induction l with
  | nil => rfl
  | cons a l ih => simp [sortDesc, length_insertDesc, ih]

theorem get_close_matches_eq_nil {sim : String → String → ℚ} {w : String}
    {ps : List String} {cutoff : ℚ} {n : Nat} (hn : n ≠ 0) :
    get_close_matches sim w ps n cutoff = [] ↔ ∀ x ∈ ps, ¬ cutoff ≤ sim x w := by
  unfold get_close_matches
  constructor
  · intro h x hx hsim
    have hmem : (sim x w, x) ∈
        (ps.filter fun y => decide (cutoff ≤ sim y w)).map fun y => (sim y w, y) :=
      List.mem_map_of_mem _ (List.mem_filter.mpr ⟨hx, decide_eq_true hsim⟩)
    have hmem2 := mem_sortDesc.mpr hmem
    rcases hs : sortDesc ((ps.filter fun y => decide (cutoff ≤ sim y w)).map
        fun y => (sim y w, y)) with _ | ⟨p, t⟩
    · rw [hs] at hmem2
      exact absurd hmem2 (List.not_mem_nil _)
    · rw [hs] at h
      rcases n with _ | n
      · exact hn rfl
      · simp at h
  · intro h
    have hf : (ps.filter fun y => decide (cutoff ≤ sim y w)) = [] := by
      apply List.filter_eq_nil_iff.mpr
      intro a ha
      simpa using h a ha
    rw [hf]
    simp [sortDesc]

theorem get_close_matches_head {sim : String → String → ℚ} {w : String}
    {ps : List String} {cutoff : ℚ} {n : Nat} {b : String} {bs : List String}
    (h : get_close_matches sim w ps n cutoff = b :: bs) :
    b ∈ ps ∧ cutoff ≤ sim b w ∧ ∀ x ∈ ps, cutoff ≤ sim x w → sim x w ≤ sim b w := by
  unfold get_close_matches at h
  rcases hs : sortDesc ((ps.filter fun y => decide (cutoff ≤ sim y w)).map
      fun y => (sim y w, y)) with _ | ⟨p, t⟩
  · rw [hs] at h
    simp at h
  · rw [hs] at h
    rcases n with _ | n
    · simp at h
    · rw [List.take_succ_cons, List.map_cons, List.cons.injEq] at h
      obtain ⟨hb, _⟩ := h
      have hp : p ∈ sortDesc ((ps.filter fun y => decide (cutoff ≤ sim y w)).map
          fun y => (sim y w, y)) := by
        rw [hs]
        exact List.mem_cons_self _ _
      obtain ⟨x, hxf, hxp⟩ := List.mem_map.mp (mem_sortDesc.mp hp)
      obtain ⟨hxps, hxc⟩ := List.mem_filter.mp hxf
      have hx2 : x = b := by
        rw [← hb, ← hxp]
      subst hx2
      have hcut : cutoff ≤ sim x w := of_decide_eq_true hxc
      have hp1 : p.1 = sim x w := by
        rw [← hxp]
      refine ⟨hxps, hcut, ?_⟩
      intro y hy hyc
      have hym : (sim y w, y) ∈ sortDesc ((ps.filter fun z => decide (cutoff ≤ sim z w)).map
          fun z => (sim z w, z)) :=
        mem_sortDesc.mpr (List.mem_map_of_mem _ (List.mem_filter.mpr ⟨hy, decide_eq_true hyc⟩))
      rw [hs] at hym
      rcases List.mem_cons.mp hym with he | ht
      · have : sim y w = p.1 := by
          rw [← he]
        rw [this, hp1]
      · have hpw := (List.pairwise_cons.mp (by
          rw [← hs]
          exact pairwise_sortDesc _)).1
        have hnlt := hpw _ ht
        rw [tupleLt] at hnlt
        push_neg at hnlt
        have := hnlt.1
        rw [hp1] at this
        exact not_lt.mp (by simpa using this)

theorem add_error_self (errors : ErrorRegistry) (f : String) (s : Int) (e : String) :
    add_error errors f s e f = errors f ++ [toString s ++ ": " ++ e] := by
  simp [add_error]

theorem add_error_ne (errors : ErrorRegistry) (f : String) (s : Int) (e : String)
    {k : String} (hk : k ≠ f) : add_error errors f s e k = errors k := by
  simp [add_error, hk]

theorem recordErrors_self (f : String) (s : Int) (l : List (Option String)) :
    ∀ errors : ErrorRegistry,
      recordErrors errors f s l f =
        errors f ++ (l.filterMap id).map fun e => toString s ++ ": " ++ e := by
  induction l with
  | nil => intro errors; simp [recordErrors]
  | cons a rest ih =>
    intro errors
    cases a with
    | none => simp [recordErrors, ih]
    | some e => simp [recordErrors, ih, add_error_self]

theorem recordErrors_ne (f : String) (s : Int) (l : List (Option String))
    {k : String} (hk : k ≠ f) :
    ∀ errors : ErrorRegistry, recordErrors errors f s l k = errors k := by
  induction l with
  | nil => intro errors; simp [recordErrors]
  | cons a rest ih =>
    intro errors
    cases a with
    | none => simp [recordErrors, ih]
    | some e => simp [recordErrors, ih, add_error_ne errors f s e hk]

theorem alookup_append_isSome {α : Type} {k : String} {l : List (String × α)}
    (m : List (String × α)) (h : (alookup k l).isSome = true) :
    (alookup k (l ++ m)).isSome = true := by
  induction l with
  | nil => simp [alookup] at h
  | cons a l ih =>
    obtain ⟨k2, v⟩ := a
    by_cases hk : k = k2
    · simp [alookup, hk]
    · simp only [alookup, if_neg hk] at h
      simpa [alookup, hk] using ih h

theorem alookup_append_self {α : Type} (k : String) (v : α) (l : List (String × α)) :
    (alookup k (l ++ [(k, v)])).isSome = true := by
  induction l with
  | nil => simp [alookup]
  | cons a l ih =>
    obtain ⟨k2, w⟩ := a
    by_cases hk : k = k2
    · simp [alookup, hk]
    · simpa [alookup, hk] using ih

theorem count_le_count_map {α β : Type} [BEq α] [LawfulBEq α] [BEq β] [LawfulBEq β]
    (f : α → β) (a : α) (l : List α) : l.count a ≤ (l.map f).count (f a) := by
  induction l with
  | nil => simp
  | cons x l ih =>
    by_cases hx : x = a
    · subst hx
      simpa [List.count_cons_self] using Nat.succ_le_succ ih
    · rw [List.count_cons_of_ne (fun h => hx h.symm) ]
      rw [List.map_cons]
      rcases eq_or_ne (f x) (f a) with hfx | hfx
      · rw [hfx, List.count_cons_self]
        exact Nat.le_succ_of_le ih
      · rw [List.count_cons_of_ne (fun h => hfx h.symm)]
        exact ih

theorem length_foldl_append (l : List String) :
    ∀ s : String, (l.foldl (fun a b => a ++ b) s).length =
      s.length + (l.map String.length).sum := by
  induction l with
  | nil => intro s; simp
  | cons a l ih =>
    intro s
    simp [List.foldl_cons, ih, String.length_append]
    omega

theorem length_byteHex (b : Nat) : (byteHex b).length = 2 := rfl

theorem length_hash_id (shake : Nat → String → List Nat) (v : String)
    (h : (shake 16 v).length = 16) : (hash_id shake v).length = 32 := by
  rw [hash_id, String.join, length_foldl_append]
  have : ∀ bs : List Nat, ((bs.map byteHex).map String.length).sum = 2 * bs.length := by
    intro bs
    induction bs with
    | nil => simp
    | cons b bs ih =>
      simp only [List.map_cons, List.sum_cons, length_byteHex, ih, List.length_cons]
      omega
  rw [this, h]
  rfl

/-- C7: normalizing the date string "23-01-15" against the format list
["%Y-%m-%d", "%y-%m-%d", "%y %m %d"] returns "2023-01-15" with no error:
"%Y" requires four digits so the first format fails, and the second format
(the earliest-listed one that parses) wins, expanding year 23 to 2023. -/
theorem C7_date_scenario :
    attempt_to_fix_date_format (some "23-01-15") defaultDateFormats =
      (some "2023-01-15", none) := by
  decide

/-- C10: `validate_time` reports "Time is missing" only for NaN input; the
empty string is reported as a parse failure "Could not parse time: " —
asymmetric with the date and categorical checks, which both treat the empty
string exactly like a missing value. -/
theorem C10_empty_time_asymmetry :
    validate_time none = (none, some "Time is missing") ∧
    validate_time (some "") = (some "", some "Could not parse time: ") ∧
    attempt_to_fix_date_format (some "") defaultDateFormats =
      (some "", some "Date is missing") ∧
    ∀ (sim : String → String → ℚ) (key : String) (allowed : List String),
      attempt_to_fix_categorical sim (some "") key allowed =
        (some "", some ("Categorical value \x27" ++ key ++ "\x27 is missing")) := by
  refine ⟨rfl, rfl, rfl, ?_⟩
  intro sim key allowed
  rfl

/-- C8 counterexample: the claim asserts the missing-value error message is
"<field> is missing" (so "location is missing" for the location field), but
the code produces "Categorical value 'location' is missing". -/
theorem C8_counterexample :
    attempt_to_fix_categorical simZero (some "") "location" LOCATIONS ≠
      (some "", some "location is missing") := by
  decide

/-- C8 (amended): for every field name and allowed set, categorical repair
of a missing (NaN) or empty value returns the value unchanged paired with
the error message "Categorical value '<field>' is missing", and no
correction is attempted. -/
theorem C8_missing_value_error (sim : String → String → ℚ) (key : String)
    (allowed : List String) (v : Option String) (h : v = none ∨ v = some "") :
    attempt_to_fix_categorical sim v key allowed =
      (v, some ("Categorical value \x27" ++ key ++ "\x27 is missing")) := by
  rcases h with rfl | rfl
  · rfl
  · rfl

/-- Witness for C8 (amended) at the concrete input of the spec equation. -/
theorem C8_missing_value_error_witness :
    ((some "" : Option String) = none ∨ (some "" : Option String) = some "") ∧
    attempt_to_fix_categorical simZero (some "") "location" LOCATIONS =
      (some "", some "Categorical value \x27location\x27 is missing") :=
  ⟨Or.inr rfl,
   C8_missing_value_error simZero "location" LOCATIONS (some "") (Or.inr rfl)⟩

/-- C6: the claim (and the function's own docstring) says `hash_id` returns
a 16-character string, but `shake_256(...).hexdigest(16)` renders 16 bytes
as hex, so for every input and every 16-byte digest the output has exactly
32 characters — the code contradicts its documentation. -/
theorem C6_hash_id_length_is_32 (shake : Nat → String → List Nat)
    (h : ∀ n s, (shake n s).length = n) (v : String) :
    (hash_id shake v).length = 32 ∧ (hash_id shake v).length ≠ 16 := by
  have h32 := length_hash_id shake v (h 16 v)
  refine ⟨h32, ?_⟩
  rw [h32]
  decide

/-- Witness for C6 at a concrete digest function and input. -/
theorem C6_hash_id_length_witness :
    (∀ n s, (shakeZero n s).length = n) ∧
    (hash_id shakeZero "market").length = 32 ∧
    (hash_id shakeZero "market").length ≠ 16 :=
  ⟨fun n _ => by simp [shakeZero],
   (C6_hash_id_length_is_32 shakeZero (fun n _ => by simp [shakeZero]) "market").1,
   (C6_hash_id_length_is_32 shakeZero (fun n _ => by simp [shakeZero]) "market").2⟩

/-- C3: for every payload of the boundary shape, `get_weather_type` returns
"sunny" exactly when the mean of `cloudcover[7:15]` (indices 7–14) is below
10; otherwise "rainy" exactly when `rain_sum[0] > 2`; otherwise "snowy"
exactly when `snowfall_sum[0] > 0.5`; otherwise "cloudy" — in this order. -/
theorem C3_weather_type_branches (w : WeatherData)
    (_hc : w.cloudcover.length = 24) (_hr : w.rain_sum.length = 1)
    (_hs : w.snowfall_sum.length = 1) :
    (get_weather_type w = "sunny" ↔ pyMean ((w.cloudcover.drop 7).take 8) < 10) ∧
    (get_weather_type w = "rainy" ↔
      ¬ pyMean ((w.cloudcover.drop 7).take 8) < 10 ∧ 2 < w.rain_sum.getD 0 0) ∧
    (get_weather_type w = "snowy" ↔
      ¬ pyMean ((w.cloudcover.drop 7).take 8) < 10 ∧ ¬ 2 < w.rain_sum.getD 0 0 ∧
        1 / 2 < w.snowfall_sum.getD 0 0) ∧
    (get_weather_type w = "cloudy" ↔
      ¬ pyMean ((w.cloudcover.drop 7).take 8) < 10 ∧ ¬ 2 < w.rain_sum.getD 0 0 ∧
        ¬ 1 / 2 < w.snowfall_sum.getD 0 0) := by
  unfold get_weather_type
  by_cases h1 : pyMean ((w.cloudcover.drop 7).take 8) < 10 <;>
    by_cases h2 : (2 : ℚ) < (w.rain_sum[0]?).getD 0 <;>
      by_cases h3 : (2 : ℚ)⁻¹ < (w.snowfall_sum[0]?).getD 0 <;>
        simp [h1, h2, h3]

/-- Witness for C3 at a concrete all-clear payload (classified "sunny"). -/
theorem C3_weather_type_witness :
    weather0.cloudcover.length = 24 ∧ weather0.rain_sum.length = 1 ∧
    weather0.snowfall_sum.length = 1 ∧
    ((get_weather_type weather0 = "sunny" ↔
        pyMean ((weather0.cloudcover.drop 7).take 8) < 10) ∧
     (get_weather_type weather0 = "rainy" ↔
        ¬ pyMean ((weather0.cloudcover.drop 7).take 8) < 10 ∧
          2 < weather0.rain_sum.getD 0 0) ∧
     (get_weather_type weather0 = "snowy" ↔
        ¬ pyMean ((weather0.cloudcover.drop 7).take 8) < 10 ∧
          ¬ 2 < weather0.rain_sum.getD 0 0 ∧ 1 / 2 < weather0.snowfall_sum.getD 0 0) ∧
     (get_weather_type weather0 = "cloudy" ↔
        ¬ pyMean ((weather0.cloudcover.drop 7).take 8) < 10 ∧
          ¬ 2 < weather0.rain_sum.getD 0 0 ∧
          ¬ 1 / 2 < weather0.snowfall_sum.getD 0 0)) :=
  ⟨rfl, rfl, rfl, C3_weather_type_branches weather0 rfl rfl rfl⟩

/-- C2: for every non-missing, non-empty string value and allowed set,
`attempt_to_fix_categorical` returns exclusively one of: the value itself
with no error when already a member; a closest allowed string (score ≥ the
0.8 cutoff, maximal among qualifying candidates) with no error when some
allowed string clears the cutoff; or the original value unchanged paired
with a descriptive error when none does.  It never pairs a changed value
with an error, and never reports no-error unless the result is a member. -/
theorem C2_categorical_contract (sim : String → String → ℚ) (key : String)
    (allowed : List String) (v : String) (hv : v ≠ "") :
    (v ∈ allowed →
      attempt_to_fix_categorical sim (some v) key allowed = (some v, none)) ∧
    (v ∉ allowed → (∃ a ∈ allowed, 4 / 5 ≤ sim a v) →
      ∃ b, attempt_to_fix_categorical sim (some v) key allowed = (some b, none) ∧
        b ∈ allowed ∧ 4 / 5 ≤ sim b v ∧
        ∀ a ∈ allowed, 4 / 5 ≤ sim a v → sim a v ≤ sim b v) ∧
    (v ∉ allowed → (∀ a ∈ allowed, sim a v < 4 / 5) →
      attempt_to_fix_categorical sim (some v) key allowed =
        (some v, some ("Could not correct categorical value \x27" ++ key ++ "\x27: " ++ v))) ∧
    (∀ r e, attempt_to_fix_categorical sim (some v) key allowed = (r, some e) →
      r = some v) ∧
    (∀ r, attempt_to_fix_categorical sim (some v) key allowed = (r, none) →
      ∃ b, r = some b ∧ b ∈ allowed) := by
  have hchar : (v ∈ allowed ∧
      attempt_to_fix_categorical sim (some v) key allowed = (some v, none)) ∨
      (v ∉ allowed ∧ ∃ b bs, get_close_matches sim v allowed 3 (4 / 5) = b :: bs ∧
        attempt_to_fix_categorical sim (some v) key allowed = (some b, none)) ∨
      (v ∉ allowed ∧ get_close_matches sim v allowed 3 (4 / 5) = [] ∧
        attempt_to_fix_categorical sim (some v) key allowed =
          (some v, some ("Could not correct categorical value \x27" ++ key ++ "\x27: " ++ v))) := by
    by_cases hmem : v ∈ allowed
    · exact Or.inl ⟨hmem, by simp [attempt_to_fix_categorical, hv, hmem]⟩
    · rcases hm : get_close_matches sim v allowed 3 (4 / 5) with _ | ⟨b, bs⟩
      · exact Or.inr (Or.inr ⟨hmem, rfl,
          by simp [attempt_to_fix_categorical, hv, hmem, hm]⟩)
      · exact Or.inr (Or.inl ⟨hmem, b, bs, rfl,
          by simp [attempt_to_fix_categorical, hv, hmem, hm]⟩)
  refine ⟨?_, ?_, ?_, ?_, ?_⟩
  · intro hmem
    simp [attempt_to_fix_categorical, hv, hmem]
  · intro hnm hex
    rcases hchar with ⟨hmem, _⟩ | ⟨_, b, bs, hm, heq⟩ | ⟨_, hm, _⟩
    · exact absurd hmem hnm
    · obtain ⟨hbmem, hbc, hbmax⟩ := get_close_matches_head hm
      exact ⟨b, heq, hbmem, hbc, hbmax⟩
    · obtain ⟨a, ha, hsa⟩ := hex
      exact absurd hsa ((get_close_matches_eq_nil (by decide)).mp hm a ha)
  · intro hnm hall
    rcases hchar with ⟨hmem, _⟩ | ⟨_, b, bs, hm, _⟩ | ⟨_, _, heq⟩
    · exact absurd hmem hnm
    · obtain ⟨hbmem, hbc, _⟩ := get_close_matches_head hm
      exact absurd hbc (not_le.mpr (hall b hbmem))
    · exact heq
  · intro r e heq
    rcases hchar with ⟨_, h1⟩ | ⟨_, b, bs, _, h1⟩ | ⟨_, _, h1⟩ <;> rw [h1] at heq
    · exact absurd (congrArg Prod.snd heq).symm (by simp)
    · exact absurd (congrArg Prod.snd heq).symm (by simp)
    · exact (congrArg Prod.fst heq).symm
  · intro r heq
    rcases hchar with ⟨hmem, h1⟩ | ⟨_, b, bs, hm, h1⟩ | ⟨_, _, h1⟩ <;> rw [h1] at heq
    · exact ⟨v, (congrArg Prod.fst heq).symm, hmem⟩
    · exact ⟨b, (congrArg Prod.fst heq).symm, (get_close_matches_head hm).1⟩
    · exact absurd (congrArg Prod.snd heq) (by simp)

/-- Witness for C2 at a concrete value and allowed set. -/
theorem C2_categorical_contract_witness :
    ("james" : String) ≠ "" ∧
    (("james" : String) ∈ EMPLOYEES →
      attempt_to_fix_categorical simZero "james" "employee" EMPLOYEES =
        (some "james", none)) :=
  ⟨by decide,
   (C2_categorical_contract simZero "employee" EMPLOYEES "james" (by decide)).1⟩

/-- C1: a row on which at least one of the five per-field checks fails
contributes no transaction, leaves the cache and the external-call log
untouched, and appends exactly one entry per failing check (all five check
results are collected, not just the first) to the error registry under the
key `location__date__employee` built from the raw row fields, each entry
formatted "<sale_number>: <message>". -/
theorem C1_invalid_row_rejected (env : Env) (st : TState) (row : MarketRow)
    (h : (rowErrorList env row).any Option.isSome = true) :
    (processRow env st row).transactions = st.transactions ∧
    (processRow env st row).errors (origFilename row) =
      st.errors (origFilename row) ++
        ((rowErrorList env row).filterMap id).map
          (fun e => toString row.sale_number ++ ": " ++ e) ∧
    (∀ k, k ≠ origFilename row → (processRow env st row).errors k = st.errors k) ∧
    (processRow env st row).weather_data = st.weather_data ∧
    (processRow env st row).calls = st.calls := by
  have hp : processRow env st row =
      { st with errors := recordErrors st.errors (origFilename row) row.sale_number (rowErrorList env row) } := by
    rw [processRow]
    simp [h]
  rw [hp]
  refine ⟨rfl, ?_, ?_, rfl, rfl⟩
  · exact recordErrors_self _ _ _ _
  · intro k hk
    exact recordErrors_ne _ _ _ hk _

/-- Witness for C1: a concrete row whose location cell is NaN. -/
theorem C1_invalid_row_rejected_witness :
    (rowErrorList envW rowBad).any Option.isSome = true ∧
    ((processRow envW initState rowBad).transactions = initState.transactions ∧
     (processRow envW initState rowBad).errors (origFilename rowBad) =
       initState.errors (origFilename rowBad) ++
         ((rowErrorList envW rowBad).filterMap id).map
           (fun e => toString rowBad.sale_number ++ ": " ++ e) ∧
     (∀ k, k ≠ origFilename rowBad →
       (processRow envW initState rowBad).errors k = initState.errors k) ∧
     (processRow envW initState rowBad).weather_data = initState.weather_data ∧
     (processRow envW initState rowBad).calls = initState.calls) :=
  ⟨by decide, C1_invalid_row_rejected envW initState rowBad (by decide)⟩

/-- C5: every accepted row appends exactly one transaction whose
`transaction_id` is `hash_id` of the concatenation of the tag "market", the
repaired location, the repaired employee, the raw date string and the sale
number; the embedding is a pure function of the row data, so re-running it
on the same rows reproduces the same ids. -/
theorem C5_transaction_id_derivation (env : Env) (st : TState) (row : MarketRow)
    (h : (rowErrorList env row).any Option.isSome = false) :
    ((processRow env st row).transactions).map Transaction.transaction_id =
      (st.transactions.map Transaction.transaction_id) ++
        [hash_id env.shake ("market" ++ pdText (locResult env row).1 ++
          pdText (empResult env row).1 ++ pdText row.date ++
          toString row.sale_number)] := by
  rcases hl : alookup (weatherKey env row) st.weather_data with _ | tw <;>
    simp [processRow, h, hl, acceptedTransaction, fixedRowId]

/-- Witness for C5: the accepted sample row. -/
theorem C5_transaction_id_derivation_witness :
    (rowErrorList envW rowGood).any Option.isSome = false ∧
    ((processRow envW initState rowGood).transactions).map Transaction.transaction_id =
      (initState.transactions.map Transaction.transaction_id) ++
        [hash_id envW.shake ("market" ++ pdText (locResult envW rowGood).1 ++
          pdText (empResult envW rowGood).1 ++ pdText rowGood.date ++
          toString rowGood.sale_number)] :=
  ⟨by decide, C5_transaction_id_derivation envW initState rowGood (by decide)⟩

/-- C9: every accepted row's transaction carries
`tax = round(unit_price * quantity * TAX_RATE, 2)` and
`total = round(unit_price * quantity * (1 + TAX_RATE), 2)` with
`TAX_RATE = 0.05`; `tax + (total - tax) = total` holds exactly; and for
unit price 6.99 and quantity 3 these round to 1.05 and 22.02. -/
theorem ratFloor_eq_floor (x : ℚ) : ratFloor x = ⌊x⌋ := by
  rw [Rat.floor_def, ratFloor]
  exact Int.fdiv_eq_ediv _ (Int.natCast_nonneg _)

theorem pyRoundInt_up {x : ℚ} {n : ℤ} (h1 : (n : ℚ) ≤ x) (h2 : x < (n : ℚ) + 1)
    (hr : 1 / 2 < x - (n : ℚ)) : pyRoundInt x = n + 1 := by
  have hfl : ratFloor x = n := by
    rw [ratFloor_eq_floor]
    refine Int.floor_eq_iff.mpr ⟨h1, ?_⟩
    linarith
  simp only [pyRoundInt, hfl]
  rw [if_neg (by linarith), if_pos hr]

theorem pyRound2_up {x y : ℚ} {n : ℤ} (hx : x * 100 = y) (h1 : (n : ℚ) ≤ y)
    (h2 : y < (n : ℚ) + 1) (hr : 1 / 2 < y - (n : ℚ)) :
    pyRound2 x = ((n + 1 : ℤ) : ℚ) / 100 := by
  rw [pyRound2, hx, pyRoundInt_up h1 h2 hr]

theorem C9_tax_total (env : Env) (st : TState) (row : MarketRow)
    (h : (rowErrorList env row).any Option.isSome = false) :
    (∃ t : Transaction, (processRow env st row).transactions = st.transactions ++ [t] ∧
      t.tax = pyRound2 (row.unit_price * row.quantity * TAX_RATE) ∧
      t.total = pyRound2 (row.unit_price * row.quantity * (1 + TAX_RATE)) ∧
      t.tax + (t.total - t.tax) = t.total) ∧
    pyRound2 (699 / 100 * 3 * TAX_RATE) = 105 / 100 ∧
    pyRound2 (699 / 100 * 3 * (1 + TAX_RATE)) = 2202 / 100 := by
  have htax : pyRound2 (699 / 100 * 3 * TAX_RATE) = 105 / 100 := by
    rw [pyRound2_up (show ((699 : ℚ) / 100 * 3 * TAX_RATE) * 100 = 2097 / 20 by
        norm_num [TAX_RATE])
      (show (((104 : ℤ) : ℚ)) ≤ 2097 / 20 by norm_num)
      (show ((2097 : ℚ) / 20) < ((104 : ℤ) : ℚ) + 1 by norm_num)
      (show (1 : ℚ) / 2 < 2097 / 20 - ((104 : ℤ) : ℚ) by norm_num)]
    norm_num
  have htot : pyRound2 (699 / 100 * 3 * (1 + TAX_RATE)) = 2202 / 100 := by
    rw [pyRound2_up (show ((699 : ℚ) / 100 * 3 * (1 + TAX_RATE)) * 100 = 44037 / 20 by
        norm_num [TAX_RATE])
      (show (((2201 : ℤ) : ℚ)) ≤ 44037 / 20 by norm_num)
      (show ((44037 : ℚ) / 20) < ((2201 : ℤ) : ℚ) + 1 by norm_num)
      (show (1 : ℚ) / 2 < 44037 / 20 - ((2201 : ℤ) : ℚ) by norm_num)]
    norm_num
  refine ⟨?_, htax, htot⟩
  rcases hl : alookup (weatherKey env row) st.weather_data with _ | tw
  · refine ⟨acceptedTransaction env row (env.getWeather (pdText (locResult env row).1)
      (pdText (dateResult row).1)), ?_, rfl, rfl, by ring⟩
    simp [processRow, h, hl]
  · refine ⟨acceptedTransaction env row tw, ?_, rfl, rfl, by ring⟩
    simp [processRow, h, hl]

/-- Witness for C9: the accepted sample row with unit price 6.99 and
quantity 3. -/
theorem C9_tax_total_witness :
    (rowErrorList envW rowGood).any Option.isSome = false ∧
    ((∃ t : Transaction,
        (processRow envW initState rowGood).transactions = initState.transactions ++ [t] ∧
        t.tax = pyRound2 (rowGood.unit_price * rowGood.quantity * TAX_RATE) ∧
        t.total = pyRound2 (rowGood.unit_price * rowGood.quantity * (1 + TAX_RATE)) ∧
        t.tax + (t.total - t.tax) = t.total) ∧
      pyRound2 (699 / 100 * 3 * TAX_RATE) = 105 / 100 ∧
      pyRound2 (699 / 100 * 3 * (1 + TAX_RATE)) = 2202 / 100) :=
  ⟨by decide, C9_tax_total envW initState rowGood (by decide)⟩

theorem processRow_cacheInv (env : Env) (row : MarketRow) {st : TState}
    (hinv : CacheInv st) : CacheInv (processRow env st row) := by
  by_cases h : (rowErrorList env row).any Option.isSome = true
  · have hp : processRow env st row =
        { st with errors := recordErrors st.errors (origFilename row) row.sale_number (rowErrorList env row) } := by
      rw [processRow]
      simp [h]
    rw [hp]
    exact hinv
  · have hb : (rowErrorList env row).any Option.isSome = false := by
      revert h
      cases (rowErrorList env row).any Option.isSome <;> simp
    rcases hl : alookup (weatherKey env row) st.weather_data with _ | tw
    · have hp : processRow env st row =
          { st with
            errors := recordErrors st.errors (origFilename row) row.sale_number (rowErrorList env row),
            transactions := st.transactions ++ [acceptedTransaction env row
              (env.getWeather (pdText (locResult env row).1) (pdText (dateResult row).1))],
            weather_data := st.weather_data ++ [(weatherKey env row,
              env.getWeather (pdText (locResult env row).1) (pdText (dateResult row).1))],
            calls := st.calls ++ [(pdText (locResult env row).1, pdText (dateResult row).1)] } := by
        rw [processRow]
        simp [hb, hl]
      rw [hp]
      have hkey : callKey (pdText (locResult env row).1, pdText (dateResult row).1) =
          weatherKey env row := rfl
      constructor
      · rw [List.map_append]
        rw [List.nodup_append]
        refine ⟨hinv.1, List.nodup_singleton _, ?_⟩
        intro x hx hx2
        have hxk : x = weatherKey env row := by
          simpa [hkey] using hx2
        subst hxk
        obtain ⟨c, hc, hck⟩ := List.mem_map.mp hx
        have := hinv.2 c hc
        rw [hck, hl] at this
        simp at this
      · intro c hc
        rcases List.mem_append.mp hc with hc | hc
        · exact alookup_append_isSome _ (hinv.2 c hc)
        · have hcp : c = (pdText (locResult env row).1, pdText (dateResult row).1) := by
            simpa using hc
          subst hcp
          rw [hkey]
          exact alookup_append_self _ _ _
    · have hp : processRow env st row =
          { st with
            errors := recordErrors st.errors (origFilename row) row.sale_number (rowErrorList env row),
            transactions := st.transactions ++ [acceptedTransaction env row tw] } := by
        rw [processRow]
        simp [hb, hl]
      rw [hp]
      exact hinv

/-- C4: within one invocation of `transform_market_transactions`, for every
`(location, date)` pair the external `get_weather` collaborator is invoked
at most once: the call log of a full run never repeats a pair, because the
first valid row with a given `date:location` key stores the result in the
cache and every later row with the same key is served from it. -/
theorem C4_weather_lookup_at_most_once (env : Env) (rows : List MarketRow)
    (loc date : String) :
    ((transform_market_transactions env rows).calls).count (loc, date) ≤ 1 := by
  have haux : ∀ st : TState, CacheInv st →
      CacheInv (rows.foldl (processRow env) st) := by
    induction rows with
    | nil => intro st h; exact h
    | cons r rs ih =>
      intro st h
      exact ih _ (processRow_cacheInv env r h)
  have hinv : CacheInv (transform_market_transactions env rows) := by
    refine haux initState ⟨List.nodup_nil, ?_⟩
    intro c hc
    simp [initState] at hc
  calc ((transform_market_transactions env rows).calls).count (loc, date)
      ≤ (((transform_market_transactions env rows).calls).map callKey).count
          (callKey (loc, date)) := count_le_count_map callKey (loc, date) _
    _ ≤ 1 := List.nodup_iff_count_le_one.mp hinv.1 _
